import Mathlib

/-!
Shallow embedding of the `PersonMatte` pipeline of holocall-v2
(`src/personMatte.js` and the unnamed variant `src/unnamed/part_000`).

Canvas 2D compositing is modelled per pixel on premultiplied RGBA values
over `ℚ`.  An image is a function from pixel coordinates to an RGBA value;
every `drawImage` in the source targets either the full canvas or the
centered scaled rectangle, which is modelled explicitly.  The CSS `blur(r)`
filter is a host capability, so it is passed in as an abstract kernel
`blur : ℚ → Img → Img`; theorems that need a property of it take that
property as a hypothesis, and witnesses instantiate it with a concrete
kernel.
-/

namespace HoloCall

/-- A premultiplied RGBA pixel; channel values live in `ℚ`
(the host stores bytes, the model keeps exact arithmetic). -/
structure RGBA where
  r : ℚ
  g : ℚ
  b : ℚ
  a : ℚ
  deriving DecidableEq

/-- The fully transparent pixel (`clearRect` result). -/
def RGBA.transparent : RGBA := ⟨0, 0, 0, 0⟩

/-- An image: pixel coordinates to premultiplied RGBA. -/
def Img : Type := ℕ → ℕ → RGBA

/-- A cleared canvas: every pixel fully transparent. -/
def clearImg : Img := fun _ _ => RGBA.transparent

/-- Porter-Duff `source-over` of one source pixel with `globalAlpha = g`
onto a destination pixel, on premultiplied values:
`out = g*src + dst*(1 - g*src.a)`. -/
def overPix (g : ℚ) (s d : RGBA) : RGBA :=
  ⟨g * s.r + d.r * (1 - g * s.a),
   g * s.g + d.g * (1 - g * s.a),
   g * s.b + d.b * (1 - g * s.a),
   g * s.a + d.a * (1 - g * s.a)⟩

/-- Full-canvas `drawImage` with `source-over` and `globalAlpha = g`. -/
def overImg (g : ℚ) (src dst : Img) : Img :=
  fun x y => overPix g (src x y) (dst x y)

/-- Porter-Duff `source-in`: keep the source where the destination has
alpha; the destination's own color is discarded. -/
def sourceInPix (s d : RGBA) : RGBA :=
  ⟨s.r * d.a, s.g * d.a, s.b * d.a, s.a * d.a⟩

/-- Porter-Duff `destination-in`: keep the destination where the source has
alpha (`dst * src.a`). -/
def destInPix (s d : RGBA) : RGBA :=
  ⟨d.r * s.a, d.g * s.a, d.b * s.a, d.a * s.a⟩

/-- The shrink factor actually used by `_composite`:
`Math.min(1, Math.max(0.97, this.opts.rgbScale))`. -/
def effScale (rgbScale : ℚ) : ℚ := min 1 (max (97 / 100) rgbScale)

/-- Whether pixel `(px, py)` lies in the centered rectangle of size
`(w*sc, h*sc)` inside a `w × h` canvas (the target rectangle of the scaled
frame draw `drawImage(frame, x, y, w2, h2)`). -/
def inScaledRect (w h : ℕ) (sc : ℚ) (px py : ℕ) : Bool :=
  let w2 : ℚ := w * sc
  let h2 : ℚ := h * sc
  let x : ℚ := ((w : ℚ) - w2) / 2
  let y : ℚ := ((h : ℚ) - h2) / 2
  decide (x ≤ px) && decide ((px : ℚ) < x + w2) &&
  decide (y ≤ py) && decide ((py : ℚ) < y + h2)

/-- The scaled, centered frame draw, seen as a source image over the whole
canvas: inside the target rectangle the frame is sampled (nearest pixel),
outside it the source is transparent. -/
def scaledFrameSrc (frame : Img) (w h : ℕ) (sc : ℚ) : Img :=
  fun px py =>
    if inScaledRect w h sc px py then
      let x : ℚ := ((w : ℚ) - w * sc) / 2
      let y : ℚ := ((h : ℚ) - h * sc) / 2
      frame (⌊((px : ℚ) - x) / sc⌋.toNat) (⌊((py : ℚ) - y) / sc⌋.toNat)
    else RGBA.transparent

/-- `_composite` of `src/personMatte.js`: clear; draw the mask canvas
`source-over`; if `featherPx > 0.2` draw a `blur(featherPx * 0.6)` copy of
the canvas over itself; then draw the scaled centered frame with
`source-in`. -/
def compositeMatte (blur : ℚ → Img → Img) (featherPx rgbScale : ℚ)
    (mask frame : Img) (w h : ℕ) : Img :=
  let d1 := overImg 1 mask clearImg
  let d2 := if featherPx > 1 / 5 then overImg 1 (blur (featherPx * (3 / 5)) d1) d1 else d1
  let src := scaledFrameSrc frame w h (effScale rgbScale)
  fun x y => sourceInPix (src x y) (d2 x y)

/-- `_composite` of `src/unnamed/part_000`: clear; `copy` the scaled
centered frame (replacing the whole canvas); `destination-in` the mask;
if `featherPx > 0.2` draw a `blur(featherPx * 0.4)` copy of the canvas
over itself. -/
def compositePart000 (blur : ℚ → Img → Img) (featherPx rgbScale : ℚ)
    (mask frame : Img) (w h : ℕ) : Img :=
  let d1 := scaledFrameSrc frame w h (effScale rgbScale)
  let d2 := fun x y => destInPix (mask x y) (d1 x y)
  if featherPx > 1 / 5 then overImg 1 (blur (featherPx * (2 / 5)) d2) d2 else d2

/-- Modelled from the spec (section 4.4 Compositor contract, for the
refinement comparison): clear the output; opaquely draw the scaled centered
frame replacing destination contents; scale destination alpha by the mask,
discarding color outside the mask; if `featherPx > 0.2`, blur the already
masked result by `frac * featherPx` and composite it over itself with
normal (over) blending. -/
def compositeSpec (blur : ℚ → Img → Img) (frac featherPx rgbScale : ℚ)
    (mask frame : Img) (w h : ℕ) : Img :=
  let step2 := scaledFrameSrc frame w h (effScale rgbScale)
  let step3 := fun x y => destInPix (mask x y) (step2 x y)
  if featherPx > 1 / 5 then overImg 1 (blur (frac * featherPx) step3) step3 else step3

/-- Step 2 of `_onResults` (the MaskSmoother): snapshot the previous
smoothed mask, clear the smoothed-mask canvas, draw the snapshot with
`globalAlpha = 1 - emaAlpha`, then draw the raw mask with
`globalAlpha = emaAlpha`, both `source-over`. -/
def emaStep (alpha : ℚ) (sPrev rawMask : Img) : Img :=
  overImg alpha rawMask (overImg (1 - alpha) sPrev clearImg)

/-- Step 3 of `_onResults` (the MaskShaper): if `dilatePx > 0` or
`featherPx > 0`, draw a `blur(dilatePx + featherPx)` copy of the
smoothed-mask canvas over itself (in place, `source-over`). -/
def shapeStep (blur : ℚ → Img → Img) (dilatePx featherPx : ℚ) (m : Img) : Img :=
  if dilatePx > 0 ∨ featherPx > 0 then
    overImg 1 (blur (max 0 (dilatePx + featherPx)) m) m
  else m

/-- The options object built by the constructor
(`this.opts = { modelSelection, featherPx, dilatePx, emaAlpha, rgbScale,
depthFpsDivider }`) — stored verbatim, no validation or clamping happens at
construction. -/
structure Opts where
  modelSelection : ℤ
  featherPx : ℚ
  dilatePx : ℚ
  emaAlpha : ℚ
  rgbScale : ℚ
  depthFpsDivider : ℚ
  deriving DecidableEq

/-- The constructor's storing of its configuration parameters. -/
def mkOpts (modelSelection : ℤ) (featherPx dilatePx emaAlpha rgbScale depthFpsDivider : ℚ) :
    Opts :=
  ⟨modelSelection, featherPx, dilatePx, emaAlpha, rgbScale, depthFpsDivider⟩

/-- The constructor's default parameter values
(`modelSelection = 1, featherPx = 1.0, dilatePx = 0.6, emaAlpha = 0.35,
rgbScale = 0.992, depthFpsDivider = 1`). -/
def defaultOpts : Opts := mkOpts 1 1 (3 / 5) (7 / 20) (124 / 125) 1

/-- The mutable state of a `PersonMatte` instance: the four canvases with
their dimensions, the stop flag, the frame counter, and (ghost
instrumentation for the decimation property) the list of tick numbers on
which the segmentation provider was invoked (`seg.send`). -/
structure St where
  canvasDim : ℕ × ℕ
  rawDim : ℕ × ℕ
  niceDim : ℕ × ℕ
  scratchDim : ℕ × ℕ
  stopped : Bool
  frame : ℕ
  maskRaw : Img
  maskNice : Img
  scratch : Img
  canvas : Img
  reqLog : List ℕ

/-- The constructor's initial state: four freshly created canvases
(default size 300 × 150, fully transparent), not stopped, frame counter 0. -/
def mkState : St :=
  { canvasDim := (300, 150), rawDim := (300, 150), niceDim := (300, 150),
    scratchDim := (300, 150), stopped := false, frame := 0,
    maskRaw := clearImg, maskNice := clearImg, scratch := clearImg,
    canvas := clearImg, reqLog := [] }

/-- JS `a || b || c` on numeric dimensions (0 is falsy), as used by
`start()` in `part_000`: `videoWidth || width || 640`. -/
def jsOrDim (a b c : ℕ) : ℕ := if a ≠ 0 then a else if b ≠ 0 then b else c

/-- `start()`: after `_waitForVideo()` has resolved (which, in `part_000`,
guarantees non-zero `videoWidth`/`videoHeight`), read the dimensions with
their fallbacks and set every one of the four canvases to them.  The wait
itself is temporal host behavior; its postcondition enters theorems as the
hypothesis that the reported video dimensions are non-zero. -/
def startFn (videoW videoH elemW elemH : ℕ) (s : St) : St :=
  let w := jsOrDim videoW elemW 640
  let h := jsOrDim videoH elemH 480
  { s with canvasDim := (w, h), rawDim := (w, h), niceDim := (w, h),
           scratchDim := (w, h) }

/-- `stop()`: set the stop flag.  Nothing else. -/
def stopFn (s : St) : St := { s with stopped := true }

/-- The body of `_onResults`: copy the provider's mask into `_maskRaw`,
snapshot `_maskNice` into `_scratch`, rebuild `_maskNice` by the EMA step
and then the in-place shaping blur, then composite.  Note there is no check
of the stop flag anywhere in this callback. -/
def onResultsState (cfg : Opts) (blur : ℚ → Img → Img) (seg frameImg : Img) (s : St) : St :=
  let raw := seg
  let snap := s.maskNice
  let nice := shapeStep blur cfg.dilatePx cfg.featherPx (emaStep cfg.emaAlpha snap raw)
  { s with maskRaw := raw, scratch := snap, maskNice := nice,
           canvas := compositeMatte blur cfg.featherPx cfg.rgbScale nice frameImg
                       s.canvasDim.1 s.canvasDim.2 }

/-- A segmentation result being delivered to the `onResults` callback —
in particular one that arrives after `stop()` was called: the callback is
run unconditionally. -/
def deliverResult (cfg : Opts) (blur : ℚ → Img → Img) (seg frameImg : Img) (s : St) : St :=
  onResultsState cfg blur seg frameImg s

/-- `Math.max(1, this.opts.depthFpsDivider|0)`: truncate toward zero
(`|0`), then clamp below by 1. -/
def maskEvery (divider : ℚ) : ℕ := (max 1 (Int.tdiv divider.num divider.den)).toNat

/-- The decimation test of `_tick`:
`divide > 1 && (this._frame % divide)` — true means skip the mask request
this tick. -/
def skipTick (divide f : ℕ) : Bool := decide (1 < divide) && decide (f % divide ≠ 0)

/-- One iteration of `_tick`.  `frames t` is the video element's content on
tick `t` (the live frame); `provider t` is the outcome of the segmentation
request issued on tick `t` (`none` = the `seg.send` promise rejects).  On a
skip tick the previous mask is reused and only the compositor runs; on a
failed request the `catch` does the same; on success `_onResults` runs. -/
def tickFn (cfg : Opts) (blur : ℚ → Img → Img) (frames : ℕ → Img)
    (provider : ℕ → Option Img) (s : St) : St :=
  if s.stopped then s
  else
    let f := s.frame + 1
    let d := maskEvery cfg.depthFpsDivider
    if skipTick d f then
      { s with frame := f,
               canvas := compositeMatte blur cfg.featherPx cfg.rgbScale s.maskNice
                           (frames f) s.canvasDim.1 s.canvasDim.2 }
    else
      match provider f with
      | some seg =>
          onResultsState cfg blur seg (frames f) { s with frame := f, reqLog := s.reqLog ++ [f] }
      | none =>
          { s with frame := f, reqLog := s.reqLog ++ [f],
                   canvas := compositeMatte blur cfg.featherPx cfg.rgbScale s.maskNice
                               (frames f) s.canvasDim.1 s.canvasDim.2 }

/-- `n` consecutive iterations of the tick loop. -/
def runTicks (cfg : Opts) (blur : ℚ → Img → Img) (frames : ℕ → Img)
    (provider : ℕ → Option Img) : ℕ → St → St
  | 0, s => s
  | n + 1, s => runTicks cfg blur frames provider n (tickFn cfg blur frames provider s)

/-! Concrete instances used to evaluate the model on closed inputs. -/

/-- A trivial blur kernel (radius ignored, image unchanged) — what a
0-radius CSS blur does; used to instantiate the abstract blur parameter. -/
def blurId : ℚ → Img → Img := fun _ m => m

/-- A constant image. -/
def constImg (c : RGBA) : Img := fun _ _ => c

/-- A fully opaque white image (a full-foreground mask). -/
def whiteImg : Img := constImg ⟨1, 1, 1, 1⟩

/-- A fully opaque red image (a frame with visible content). -/
def redImg : Img := constImg ⟨1, 0, 0, 1⟩

/-- A frame stream that is blank on every tick. -/
def framesBlank : ℕ → Img := fun _ => clearImg

/-- A frame stream that is opaque red on every tick. -/
def framesRed : ℕ → Img := fun _ => redImg

/-- A provider whose every request rejects. -/
def providerFail : ℕ → Option Img := fun _ => none

/-- A provider that always resolves with a full-foreground mask. -/
def providerWhite : ℕ → Option Img := fun _ => some whiteImg

/-- Options with `depthFpsDivider = 1` and no feather/dilate, `emaAlpha = 1`. -/
def cfg1 : Opts := mkOpts 1 0 0 1 1 1

/-- Options with `depthFpsDivider = 2` and no feather/dilate, `emaAlpha = 1`. -/
def cfg2 : Opts := mkOpts 1 0 0 1 1 2

/-- Options with `dilatePx = 1`, `featherPx = 0`, `emaAlpha = 1/2`. -/
def cfgShape : Opts := mkOpts 1 0 1 (1 / 2) 1 1

/-- A freshly started instance on a 1 × 1 video. -/
def stStarted1 : St := startFn 1 1 0 0 mkState

/-- A freshly started instance on a 2 × 2 video. -/
def stStarted2 : St := startFn 2 2 0 0 mkState

/-- A started instance on which `stop()` has been called. -/
def stStopped : St := stopFn stStarted1

/-- Averaging the two pixels of row `y` of a width-2 image — the effect of
a wide blur kernel on a 2 × 1 canvas. -/
def avgRow2 (m : Img) : Img := fun _ y =>
  ⟨((m 0 y).r + (m 1 y).r) / 2, ((m 0 y).g + (m 1 y).g) / 2,
   ((m 0 y).b + (m 1 y).b) / 2, ((m 0 y).a + (m 1 y).a) / 2⟩

/-- A blur kernel for a 2 × 1 canvas: every output pixel is the row
average (radius ignored). -/
def blurAvg2 : ℚ → Img → Img := fun _ m => avgRow2 m

/-- A 2 × 1 frame: red at `x = 0`, green at `x = 1`, opaque. -/
def frameRG : Img := fun x _ => if x = 0 then ⟨1, 0, 0, 1⟩ else ⟨0, 1, 0, 1⟩

/-- A tick from an unstopped state increments the frame counter and leaves
the stop flag and the canvas dimensions unchanged. -/
lemma tickFn_basic (cfg : Opts) (blur : ℚ → Img → Img) (frames : ℕ → Img)
    (provider : ℕ → Option Img) (s : St) (hs : s.stopped = false) :
    (tickFn cfg blur frames provider s).frame = s.frame + 1 ∧
    (tickFn cfg blur frames provider s).stopped = false ∧
    (tickFn cfg blur frames provider s).canvasDim = s.canvasDim := by
  unfold tickFn
  simp only [hs, Bool.false_eq_true, if_false]
  split
  · simp
  · cases provider (s.frame + 1) <;> simp [onResultsState]

/-- The request log of one tick: unchanged on a skip tick, the new tick
number appended when a request is issued (whether it succeeds or fails). -/
lemma tickFn_reqLog (cfg : Opts) (blur : ℚ → Img → Img) (frames : ℕ → Img)
    (provider : ℕ → Option Img) (s : St) (hs : s.stopped = false) :
    (tickFn cfg blur frames provider s).reqLog =
      s.reqLog ++ (if skipTick (maskEvery cfg.depthFpsDivider) (s.frame + 1)
                   then [] else [s.frame + 1]) := by
  unfold tickFn
  simp only [hs, Bool.false_eq_true, if_false]
  split
  · next hcond => simp [hcond]
  · next hcond =>
      cases provider (s.frame + 1) <;> simp [onResultsState, if_neg hcond]

/-- The request log accumulated over `n` ticks from an unstopped state. -/
lemma runTicks_reqLog (cfg : Opts) (blur : ℚ → Img → Img) (frames : ℕ → Img)
    (provider : ℕ → Option Img) :
    ∀ (n : ℕ) (s : St), s.stopped = false →
      (runTicks cfg blur frames provider n s).reqLog =
        s.reqLog ++ (List.range' (s.frame + 1) n).filter
          (fun t => !skipTick (maskEvery cfg.depthFpsDivider) t) := by
  intro n
  induction n with
  | zero => intro s _; simp [runTicks]
  | succ n ih =>
      intro s hs
      obtain ⟨hfr, hst, _⟩ := tickFn_basic cfg blur frames provider s hs
      rw [runTicks, ih _ hst, tickFn_reqLog cfg blur frames provider s hs, hfr]
      rw [List.range'_succ, List.filter_cons, List.append_assoc]
      by_cases hsk : skipTick (maskEvery cfg.depthFpsDivider) (s.frame + 1) = true <;>
        simp [hsk]



/-- C1 (amended): with `maskRequestDivider = k > 1`, the provider is
invoked on exactly the ticks `k, 2k, 3k, …` (those with `t % k = 0`), and
the compositor recomputes the output canvas from the current maskNice and
the current frame on every tick. -/
theorem decimation_schedule (cfg : Opts) (blur : ℚ → Img → Img) (frames : ℕ → Img)
    (provider : ℕ → Option Img) (k n : ℕ)
    (hk : maskEvery cfg.depthFpsDivider = k) (hk2 : 2 ≤ k) (s0 : St)
    (hs : s0.stopped = false) (hf : s0.frame = 0) (hr : s0.reqLog = []) :
    (runTicks cfg blur frames provider n s0).reqLog =
      (List.range' 1 n).filter (fun t => decide (t % k = 0)) ∧
    ∀ s : St, s.stopped = false →
      (tickFn cfg blur frames provider s).canvas =
        compositeMatte blur cfg.featherPx cfg.rgbScale
          (tickFn cfg blur frames provider s).maskNice (frames (s.frame + 1))
          s.canvasDim.1 s.canvasDim.2 := by
  constructor
  · rw [runTicks_reqLog cfg blur frames provider n s0 hs, hr, hf, hk]
    have hk1 : 1 < k := hk2
    have hfun : (fun t => !skipTick k t) = (fun t => decide (t % k = 0)) := by
      funext t
      by_cases h : t % k = 0 <;> simp [skipTick, h, hk1]
    rw [hfun]
    simp
  · intro s hs2
    unfold tickFn
    simp only [hs2, Bool.false_eq_true, if_false]
    split
    · simp
    · cases provider (s.frame + 1) <;> simp [onResultsState]

/-- C1 counterexample: with divider `k = 2`, after the first tick of a
started session the provider has not been invoked at all, although the
claim's schedule `1, k+1, 2k+1, …` (the ticks `t` with `t % k = 1`)
contains tick 1. -/
theorem decimation_counterexample :
    (runTicks cfg2 blurId framesBlank providerFail 1 stStarted2).reqLog = [] ∧
    (1 : ℕ) % 2 = 1 := ⟨rfl, rfl⟩

theorem decimation_schedule_witness :
    maskEvery cfg2.depthFpsDivider = 2 ∧
    ((runTicks cfg2 blurId framesBlank providerFail 4 stStarted2).reqLog =
        (List.range' 1 4).filter (fun t => decide (t % 2 = 0)) ∧
      ∀ s : St, s.stopped = false →
        (tickFn cfg2 blurId framesBlank providerFail s).canvas =
          compositeMatte blurId cfg2.featherPx cfg2.rgbScale
            (tickFn cfg2 blurId framesBlank providerFail s).maskNice
            (framesBlank (s.frame + 1)) s.canvasDim.1 s.canvasDim.2) :=
  ⟨by decide, decimation_schedule cfg2 blurId framesBlank providerFail 2 4 (by decide)
    (by decide) stStarted2 rfl rfl rfl⟩



/-- C2 (amended): the smoother's two weighted source-over draws compute,
per pixel and channel, `α*R + (1-α)*S*(1 - α*R.a)` — the linear blend plus
a cross term; the linear blend is recovered exactly when the cross term
vanishes, in particular on the first response (previous mask blank). -/
theorem ema_over_formula (alpha : ℚ) (sPrev rawMask : Img) (x y : ℕ) :
    emaStep alpha sPrev rawMask x y =
      ⟨alpha * (rawMask x y).r + (1 - alpha) * (sPrev x y).r * (1 - alpha * (rawMask x y).a),
       alpha * (rawMask x y).g + (1 - alpha) * (sPrev x y).g * (1 - alpha * (rawMask x y).a),
       alpha * (rawMask x y).b + (1 - alpha) * (sPrev x y).b * (1 - alpha * (rawMask x y).a),
       alpha * (rawMask x y).a + (1 - alpha) * (sPrev x y).a * (1 - alpha * (rawMask x y).a)⟩ ∧
    (alpha * (1 - alpha) * (sPrev x y).a * (rawMask x y).a = 0 →
      (emaStep alpha sPrev rawMask x y).a =
        (1 - alpha) * (sPrev x y).a + alpha * (rawMask x y).a) ∧
    (sPrev x y = RGBA.transparent →
      emaStep alpha sPrev rawMask x y =
        ⟨alpha * (rawMask x y).r, alpha * (rawMask x y).g, alpha * (rawMask x y).b,
         alpha * (rawMask x y).a⟩) := by
  refine ⟨?_, ?_, ?_⟩
  · simp only [emaStep, overImg, overPix, clearImg, RGBA.transparent, RGBA.mk.injEq]
    refine ⟨by ring, by ring, by ring, by ring⟩
  · intro hcross
    simp only [emaStep, overImg, overPix, clearImg, RGBA.transparent]
    linear_combination -hcross
  · intro hprev
    simp only [emaStep, overImg, overPix, clearImg, hprev, RGBA.transparent, RGBA.mk.injEq]
    refine ⟨by ring, by ring, by ring, by ring⟩

/-- C2 counterexample: with `α = 1/2` and both the previous smoothed mask
and the raw mask fully opaque, the code produces alpha `3/4` where the
claimed linear blend `(1-α)*S + α*R` gives `1`. -/
theorem ema_linear_counterexample :
    (emaStep (1 / 2) whiteImg whiteImg 0 0).a = 3 / 4 ∧
    (1 - 1 / 2 : ℚ) * (whiteImg 0 0).a + (1 / 2) * (whiteImg 0 0).a = 1 ∧
    (3 / 4 : ℚ) ≠ 1 := by
  refine ⟨?_, ?_, by norm_num⟩
  · norm_num [emaStep, overImg, overPix, clearImg, RGBA.transparent, whiteImg, constImg]
  · norm_num [whiteImg, constImg]

theorem ema_over_formula_witness :
    ((emaStep (1 / 2) clearImg whiteImg 0 0).a =
      (1 - 1 / 2) * (clearImg 0 0).a + (1 / 2) * (whiteImg 0 0).a) ∧
    emaStep (1 / 2) clearImg whiteImg 0 0 =
      ⟨(1 / 2) * (whiteImg 0 0).r, (1 / 2) * (whiteImg 0 0).g, (1 / 2) * (whiteImg 0 0).b,
       (1 / 2) * (whiteImg 0 0).a⟩ :=
  ⟨(ema_over_formula (1 / 2) clearImg whiteImg 0 0).2.1
      (by norm_num [clearImg, RGBA.transparent]),
   (ema_over_formula (1 / 2) clearImg whiteImg 0 0).2.2 rfl⟩

/-- C5: if the provider call of tick `T` rejects, the three mask canvases
are unchanged, the output is recomposited from the previous smoothed mask
and the live frame, the failure is swallowed (the tick function is total
and returns a normal state), and the loop keeps ticking (the stop flag is
still clear and the frame counter advanced). -/
theorem failure_fallback (cfg : Opts) (blur : ℚ → Img → Img) (frames : ℕ → Img)
    (provider : ℕ → Option Img) (s : St) (hs : s.stopped = false)
    (hreq : skipTick (maskEvery cfg.depthFpsDivider) (s.frame + 1) = false)
    (hfail : provider (s.frame + 1) = none) :
    (tickFn cfg blur frames provider s).maskRaw = s.maskRaw ∧
    (tickFn cfg blur frames provider s).maskNice = s.maskNice ∧
    (tickFn cfg blur frames provider s).scratch = s.scratch ∧
    (tickFn cfg blur frames provider s).canvas =
      compositeMatte blur cfg.featherPx cfg.rgbScale s.maskNice (frames (s.frame + 1))
        s.canvasDim.1 s.canvasDim.2 ∧
    (tickFn cfg blur frames provider s).frame = s.frame + 1 ∧
    (tickFn cfg blur frames provider s).stopped = false := by
  unfold tickFn
  simp [hs, hreq, hfail]

theorem failure_fallback_witness :
    skipTick (maskEvery cfg1.depthFpsDivider) (stStarted1.frame + 1) = false ∧
    providerFail (stStarted1.frame + 1) = none ∧
    ((tickFn cfg1 blurId framesRed providerFail stStarted1).maskNice = stStarted1.maskNice ∧
     (tickFn cfg1 blurId framesRed providerFail stStarted1).canvas =
       compositeMatte blurId cfg1.featherPx cfg1.rgbScale stStarted1.maskNice
         (framesRed (stStarted1.frame + 1)) stStarted1.canvasDim.1 stStarted1.canvasDim.2 ∧
     (tickFn cfg1 blurId framesRed providerFail stStarted1).stopped = false) := by
  refine ⟨by decide, rfl, ?_⟩
  obtain ⟨_, h2, _, h4, _, h6⟩ :=
    failure_fallback cfg1 blurId framesRed providerFail stStarted1 rfl (by decide) rfl
  exact ⟨h2, h4, h6⟩



/-- C6 (amended): stop halts all future ticks and is idempotent. -/
theorem stop_semantics (cfg : Opts) (blur : ℚ → Img → Img) (frames : ℕ → Img)
    (provider : ℕ → Option Img) (s : St) :
    (stopFn s).stopped = true ∧
    stopFn (stopFn s) = stopFn s ∧
    (∀ s2 : St, s2.stopped = true → tickFn cfg blur frames provider s2 = s2) := by
  refine ⟨rfl, rfl, ?_⟩
  intro s2 h2
  simp [tickFn, h2]

theorem stop_semantics_witness :
    (stopFn stStarted1).stopped = true ∧
    tickFn cfg1 blurId framesBlank providerFail stStopped = stStopped :=
  ⟨(stop_semantics cfg1 blurId framesBlank providerFail stStarted1).1,
   (stop_semantics cfg1 blurId framesBlank providerFail stStarted1).2.2 stStopped rfl⟩

/-- C6 counterexample: a provider result delivered after `stop()` was
observed is still applied and rendered — `_onResults` has no stop check, so
the output canvas is mutated once more on a stopped instance. -/
theorem stop_late_result_counterexample :
    stStopped.stopped = true ∧
    (deliverResult cfg1 blurId whiteImg redImg stStopped).canvas 0 0 ≠
      stStopped.canvas 0 0 := by
  refine ⟨rfl, ?_⟩
  have h1 : (deliverResult cfg1 blurId whiteImg redImg stStopped).canvas 0 0 =
      ⟨1, 0, 0, 1⟩ := by
    norm_num [deliverResult, onResultsState, compositeMatte, cfg1, mkOpts, stStopped,
      stStarted1, stopFn, startFn, mkState, shapeStep, emaStep, overImg, overPix, clearImg,
      RGBA.transparent, sourceInPix, scaledFrameSrc, inScaledRect, effScale, jsOrDim, blurId,
      whiteImg, redImg, constImg]
  rw [h1]
  norm_num [stStopped, stStarted1, stopFn, startFn, mkState, clearImg, RGBA.transparent,
    RGBA.mk.injEq]

/-- C7 (amended): `_maskRaw` is its own buffer, but the smoothed and the
shaped mask share the single buffer `_maskNice`: the shaping blur is
composited over the smoothed mask in place, and the `S_prev` consumed by
the next EMA update is that shaped value. -/
theorem shaper_in_place (cfg : Opts) (blur : ℚ → Img → Img)
    (seg1 f1 seg2 f2 : Img) (s : St) :
    (onResultsState cfg blur seg1 f1 s).maskRaw = seg1 ∧
    (onResultsState cfg blur seg1 f1 s).scratch = s.maskNice ∧
    (onResultsState cfg blur seg1 f1 s).maskNice =
      shapeStep blur cfg.dilatePx cfg.featherPx (emaStep cfg.emaAlpha s.maskNice seg1) ∧
    (onResultsState cfg blur seg2 f2 (onResultsState cfg blur seg1 f1 s)).maskNice =
      shapeStep blur cfg.dilatePx cfg.featherPx
        (emaStep cfg.emaAlpha
          (shapeStep blur cfg.dilatePx cfg.featherPx (emaStep cfg.emaAlpha s.maskNice seg1))
          seg2) :=
  ⟨rfl, rfl, rfl, rfl⟩

/-- C7 counterexample: with `dilatePx = 1`, `featherPx = 0`, `α = 1/2` and
an identity blur kernel, the value persisted in `_maskNice` (alpha `3/4`,
after the in-place self-composite of the shaping step) differs from the
smoothed mask the EMA produced (alpha `1/2`): the shaping step altered the
buffer that serves as `S_prev` for the next update. -/
theorem shaper_aliases_counterexample :
    ((onResultsState cfgShape blurId whiteImg redImg mkState).maskNice 0 0).a = 3 / 4 ∧
    ((emaStep cfgShape.emaAlpha mkState.maskNice whiteImg) 0 0).a = 1 / 2 ∧
    (3 / 4 : ℚ) ≠ 1 / 2 := by
  refine ⟨?_, ?_, by norm_num⟩
  · norm_num [onResultsState, cfgShape, mkOpts, mkState, shapeStep, emaStep, overImg,
      overPix, clearImg, RGBA.transparent, blurId, whiteImg, redImg, constImg]
  · norm_num [emaStep, cfgShape, mkOpts, mkState, overImg, overPix, clearImg,
      RGBA.transparent, whiteImg, constImg]

/-- C8: once the readiness wait has produced non-zero video dimensions,
`start()` sizes all four canvases to exactly those dimensions. -/
theorem start_sizes_buffers (videoW videoH elemW elemH : ℕ) (s : St)
    (hw : 0 < videoW) (hh : 0 < videoH) :
    (startFn videoW videoH elemW elemH s).canvasDim = (videoW, videoH) ∧
    (startFn videoW videoH elemW elemH s).rawDim = (videoW, videoH) ∧
    (startFn videoW videoH elemW elemH s).niceDim = (videoW, videoH) ∧
    (startFn videoW videoH elemW elemH s).scratchDim = (videoW, videoH) := by
  have hw2 : videoW ≠ 0 := Nat.pos_iff_ne_zero.mp hw
  have hh2 : videoH ≠ 0 := Nat.pos_iff_ne_zero.mp hh
  simp [startFn, jsOrDim, hw2, hh2]

theorem start_sizes_buffers_witness :
    0 < 2 ∧
    (startFn 2 3 0 0 mkState).canvasDim = (2, 3) ∧
    (startFn 2 3 0 0 mkState).rawDim = (2, 3) ∧
    (startFn 2 3 0 0 mkState).niceDim = (2, 3) ∧
    (startFn 2 3 0 0 mkState).scratchDim = (2, 3) :=
  ⟨by decide, start_sizes_buffers 2 3 0 0 mkState (by decide) (by decide)⟩

/-- C9 (amended): the constructor stores all six parameters verbatim;
`rgbScale` is clamped to `[0.97, 1]` at each composite and
`maskRequestDivider` is coerced to an integer at least 1 at each tick, but
`emaAlpha` is never validated or clamped anywhere. -/
theorem config_clamping (ms : ℤ) (fp dp ea rs dv : ℚ) :
    (mkOpts ms fp dp ea rs dv).emaAlpha = ea ∧
    (mkOpts ms fp dp ea rs dv).rgbScale = rs ∧
    (mkOpts ms fp dp ea rs dv).depthFpsDivider = dv ∧
    97 / 100 ≤ effScale rs ∧ effScale rs ≤ 1 ∧
    1 ≤ maskEvery dv := by
  refine ⟨rfl, rfl, rfl, ?_, min_le_left _ _, ?_⟩
  · exact le_min (by norm_num) (le_max_left _ _)
  · have h1 : (1 : ℤ) ≤ max 1 (Int.tdiv dv.num dv.den) := le_max_left _ _
    exact Int.toNat_le_toNat h1

/-- C9 counterexample: constructing with `emaAlpha = 2` stores 2 — the
claimed invariant `0 ≤ emaAlpha ≤ 1` is not enforced. -/
theorem emaAlpha_unvalidated_counterexample :
    (mkOpts 1 1 (3 / 5) 2 (124 / 125) 1).emaAlpha = 2 ∧
    ¬((mkOpts 1 1 (3 / 5) 2 (124 / 125) 1).emaAlpha ≤ 1) := by
  norm_num [mkOpts]

/-- C10: on a decimated tick and on a failed-request tick, the output is
composited from the frame provider's content at the current tick; moreover
a tick's result depends on the frame stream only through the current
tick's frame, so the color content always tracks the live frame. -/
theorem live_frame_on_fallback (cfg : Opts) (blur : ℚ → Img → Img) (frames : ℕ → Img)
    (provider : ℕ → Option Img) (s : St) (hs : s.stopped = false) :
    (skipTick (maskEvery cfg.depthFpsDivider) (s.frame + 1) = true →
      (tickFn cfg blur frames provider s).canvas =
        compositeMatte blur cfg.featherPx cfg.rgbScale s.maskNice (frames (s.frame + 1))
          s.canvasDim.1 s.canvasDim.2) ∧
    (skipTick (maskEvery cfg.depthFpsDivider) (s.frame + 1) = false →
      provider (s.frame + 1) = none →
      (tickFn cfg blur frames provider s).canvas =
        compositeMatte blur cfg.featherPx cfg.rgbScale s.maskNice (frames (s.frame + 1))
          s.canvasDim.1 s.canvasDim.2) ∧
    (∀ frames2 : ℕ → Img, frames (s.frame + 1) = frames2 (s.frame + 1) →
      tickFn cfg blur frames provider s = tickFn cfg blur frames2 provider s) := by
  refine ⟨?_, ?_, ?_⟩
  · intro hsk
    unfold tickFn
    simp [hs, hsk]
  · intro hsk hfail
    unfold tickFn
    simp [hs, hsk, hfail]
  · intro frames2 hfr
    unfold tickFn
    simp only [hs, Bool.false_eq_true, if_false, hfr]

theorem live_frame_on_fallback_witness :
    skipTick (maskEvery cfg2.depthFpsDivider) (stStarted2.frame + 1) = true ∧
    (tickFn cfg2 blurId framesRed providerFail stStarted2).canvas =
      compositeMatte blurId cfg2.featherPx cfg2.rgbScale stStarted2.maskNice
        (framesRed (stStarted2.frame + 1)) stStarted2.canvasDim.1 stStarted2.canvasDim.2 :=
  ⟨by decide,
   (live_frame_on_fallback cfg2 blurId framesRed providerFail stStarted2 rfl).1 (by decide)⟩

/-- C3 (amended, refinement): the `part_000` composite implements exactly
the spec's ordered pipeline (clear, opaque scaled centered frame draw,
destination-in mask, then the conditional post-blur self-composite) with
blur fraction `0.4`. -/
theorem composite_part000_matches_spec (blur : ℚ → Img → Img) (featherPx rgbScale : ℚ)
    (mask frame : Img) (w h x y : ℕ) :
    compositePart000 blur featherPx rgbScale mask frame w h x y =
      compositeSpec blur (2 / 5) featherPx rgbScale mask frame w h x y := by
  simp only [compositePart000, compositeSpec, mul_comm]

/-- C3 counterexample: the `personMatte.js` composite does not follow the
spec's order — it blurs the mask-only canvas before the frame is masked
in, so with a frame whose colors vary, its output differs from the
spec-ordered pipeline at both endpoints of the claimed `0.4–0.6` radius
fraction range (the averaging kernel used here ignores the radius, so the
spec-ordered output is the same for every fraction). -/
theorem composite_order_counterexample :
    compositeMatte blurAvg2 1 1 whiteImg frameRG 2 1 0 0 ≠
      compositeSpec blurAvg2 (3 / 5) 1 1 whiteImg frameRG 2 1 0 0 ∧
    compositeMatte blurAvg2 1 1 whiteImg frameRG 2 1 0 0 ≠
      compositeSpec blurAvg2 (2 / 5) 1 1 whiteImg frameRG 2 1 0 0 := by
  have h1 : compositeMatte blurAvg2 1 1 whiteImg frameRG 2 1 0 0 = ⟨1, 0, 0, 1⟩ := by
    norm_num [compositeMatte, blurAvg2, avgRow2, whiteImg, constImg, frameRG, overImg,
      overPix, clearImg, RGBA.transparent, sourceInPix, scaledFrameSrc, inScaledRect,
      effScale]
  have h2 : ∀ frac : ℚ, compositeSpec blurAvg2 frac 1 1 whiteImg frameRG 2 1 0 0 =
      ⟨1 / 2, 1 / 2, 0, 1⟩ := by
    intro frac
    norm_num [compositeSpec, blurAvg2, avgRow2, whiteImg, constImg, frameRG, overImg,
      overPix, clearImg, RGBA.transparent, destInPix, scaledFrameSrc, inScaledRect,
      effScale]
  rw [h1, h2, h2]
  norm_num [RGBA.mk.injEq]



/-- Source-over keeps a pointwise transparent canvas transparent. -/
lemma overImg_transparent (g : ℚ) (src dst : Img)
    (hsrc : ∀ x y, src x y = RGBA.transparent)
    (hdst : ∀ x y, dst x y = RGBA.transparent) :
    ∀ x y, overImg g src dst x y = RGBA.transparent := by
  intro x y
  simp [overImg, overPix, hsrc x y, hdst x y, RGBA.transparent]

/-- `source-in` against a transparent destination yields transparency. -/
lemma sourceInPix_transparent (s : RGBA) :
    sourceInPix s RGBA.transparent = RGBA.transparent := by
  simp [sourceInPix, RGBA.transparent]

/-- `destination-in` with a transparent source yields transparency. -/
lemma destInPix_transparent (d : RGBA) :
    destInPix RGBA.transparent d = RGBA.transparent := by
  simp [destInPix, RGBA.transparent]

/-- C4: with an everywhere-zero shaped mask both composites leave the
output fully transparent whatever the frame holds (for any blur kernel
that maps a transparent canvas to a transparent canvas); with an
everywhere-maximal mask and `featherPx = 0` (so neither composite's
post-blur runs; `dilatePx` never reaches the composites), the opaque
region of the output is exactly the scaled, centered frame rectangle
determined by `rgbScale`. -/
theorem masking_correctness (blur : ℚ → Img → Img) (featherPx rgbScale : ℚ)
    (mask frame : Img) (w h : ℕ)
    (hblur : ∀ r m, (∀ x y, m x y = RGBA.transparent) →
      ∀ x y, blur r m x y = RGBA.transparent) :
    ((∀ x y, mask x y = RGBA.transparent) →
      ∀ x y, compositeMatte blur featherPx rgbScale mask frame w h x y = RGBA.transparent ∧
             compositePart000 blur featherPx rgbScale mask frame w h x y = RGBA.transparent) ∧
    ((∀ x y, (mask x y).a = 1) → (∀ x y, (frame x y).a = 1) →
      ∀ x y, (((compositeMatte blur 0 rgbScale mask frame w h x y).a = 1) ↔
                inScaledRect w h (effScale rgbScale) x y = true) ∧
             (((compositePart000 blur 0 rgbScale mask frame w h x y).a = 1) ↔
                inScaledRect w h (effScale rgbScale) x y = true)) := by
  constructor
  · intro hmask x y
    have hd1 : ∀ x y, overImg 1 mask clearImg x y = RGBA.transparent := by
      intro a b
      simp [overImg, overPix, clearImg, hmask a b, RGBA.transparent]
    have hd2 : ∀ x y,
        (if featherPx > 1 / 5 then
          overImg 1 (blur (featherPx * (3 / 5)) (overImg 1 mask clearImg))
            (overImg 1 mask clearImg)
         else overImg 1 mask clearImg) x y = RGBA.transparent := by
      intro a b
      split
      · exact overImg_transparent 1 _ _ (hblur _ _ hd1) hd1 a b
      · exact hd1 a b
    have hp1 : ∀ x y, destInPix (mask x y)
        (scaledFrameSrc frame w h (effScale rgbScale) x y) = RGBA.transparent := by
      intro a b
      rw [hmask a b]
      exact destInPix_transparent _
    constructor
    · show sourceInPix _ _ = RGBA.transparent
      rw [hd2 x y]
      exact sourceInPix_transparent _
    · unfold compositePart000
      by_cases hf : featherPx > 1 / 5
      · simp only [if_pos hf]
        exact overImg_transparent 1 _ _ (hblur _ _ hp1) hp1 x y
      · simp only [if_neg hf]
        exact hp1 x y
  · intro hmask hframe x y
    have hnot : ¬((0 : ℚ) > 1 / 5) := by norm_num
    have hred1 : compositeMatte blur 0 rgbScale mask frame w h x y =
        sourceInPix (scaledFrameSrc frame w h (effScale rgbScale) x y)
          (overImg 1 mask clearImg x y) := by
      simp only [compositeMatte]
      rw [if_neg hnot]
    have hred2 : compositePart000 blur 0 rgbScale mask frame w h x y =
        destInPix (mask x y) (scaledFrameSrc frame w h (effScale rgbScale) x y) := by
      simp only [compositePart000]
      rw [if_neg hnot]
    rw [hred1, hred2]
    by_cases hin : inScaledRect w h (effScale rgbScale) x y = true <;>
      simp [sourceInPix, destInPix, scaledFrameSrc, hin, overImg, overPix, clearImg,
        RGBA.transparent, hmask x y, hframe]

theorem masking_correctness_witness :
    (∀ x y, compositeMatte blurId (1 : ℚ) 1 clearImg redImg 1 1 x y = RGBA.transparent ∧
            compositePart000 blurId (1 : ℚ) 1 clearImg redImg 1 1 x y = RGBA.transparent) ∧
    (∀ x y, (((compositeMatte blurId 0 1 whiteImg redImg 1 1 x y).a = 1) ↔
               inScaledRect 1 1 (effScale 1) x y = true) ∧
            (((compositePart000 blurId 0 1 whiteImg redImg 1 1 x y).a = 1) ↔
               inScaledRect 1 1 (effScale 1) x y = true)) :=
  ⟨(masking_correctness blurId 1 1 clearImg redImg 1 1 (fun _ _ hm x y => hm x y)).1
      (fun _ _ => rfl),
   (masking_correctness blurId 0 1 whiteImg redImg 1 1 (fun _ _ hm x y => hm x y)).2
      (fun _ _ => rfl) (fun _ _ => rfl)⟩


end HoloCall
